import Mathlib

/-!
Shallow embedding of the `GraphView` force-directed graph component
(src/components/FilmCard.tsx, second component): the graph builder that
turns film records into nodes and links, the per-frame physics step
(centering, pairwise repulsion, spring links, integration with velocity
cap and damping, boundary bounce), and the pointer hit-test.

JavaScript numbers are modelled as real numbers; `x || 1` on a number is
`jsOr x 1` (the fallback is used exactly when the value is 0).  The
mutable node array is a `List Node`; object identity of the dragged node
is represented by its index in the list.
-/

inductive NodeType where
  | film
  | genre
  | director
deriving DecidableEq, Repr

structure Film where
  id : Int
  title : String
  rating : ℝ
  genres : List String
  directors : List String

structure Node where
  id : String
  type : NodeType
  label : String
  x : ℝ
  y : ℝ
  vx : ℝ
  vy : ℝ
  radius : ℝ
  color : String
  data : Option Film

structure Link where
  source : String
  target : String
deriving DecidableEq, Repr

open Classical in
/-- JavaScript `x || d` on numbers: the fallback `d` is used exactly when
`x` is falsy, i.e. equal to 0. -/
noncomputable def jsOr (x d : ℝ) : ℝ := if x = 0 then d else x

/-- The rating read by `addNode` for a film node: `data?.rating || 0`,
which is the film's rating when data is present (`r || 0` equals `r`
since the fallback is 0) and 0 when absent. -/
noncomputable def ratingOf : Option Film → ℝ
  | some f => f.rating
  | none => 0

structure BuildState where
  nodes : List Node
  links : List Link
  nodeMap : List String
  rc : Nat

/-- The `addNode` closure of the graph-building effect: de-duplicates by
id against `nodeMap`, otherwise pushes a node whose color and radius are
derived from its type (film radius `5 + rating * 0.8`), at a random
position drawn from the stream `rnd` (`Math.random() * 800/600`). -/
noncomputable def addNode (rnd : Nat → ℝ) (st : BuildState) (id : String)
    (type : NodeType) (label : String) (data : Option Film) : BuildState :=
  if st.nodeMap.contains id then st
  else
    let color : String :=
      match type with
      | NodeType.film => "#0ea5e9"
      | NodeType.genre => "#ec4899"
      | NodeType.director => "#fbbf24"
    let radius : ℝ :=
      match type with
      | NodeType.film => 5 + ratingOf data * 0.8
      | NodeType.genre => 7
      | NodeType.director => 6
    { nodes := st.nodes ++
        [{ id := id, type := type, label := label,
           x := rnd st.rc * 800, y := rnd (st.rc + 1) * 600,
           vx := 0, vy := 0, radius := radius, color := color, data := data }],
      links := st.links,
      nodeMap := st.nodeMap ++ [id],
      rc := st.rc + 2 }

/-- The id of a film's node: `f-<film.id>`. -/
def filmNodeId (film : Film) : String := "f-" ++ toString film.id

/-- Body of the genre loop of one film: add-or-reuse the genre node and
push a link from the film node to it. -/
noncomputable def genreStep (rnd : Nat → ℝ) (filmId : String) (s : BuildState)
    (g : String) : BuildState :=
  let genreId := "g-" ++ g
  let s1 := addNode rnd s genreId NodeType.genre g none
  { s1 with links := s1.links ++ [{ source := filmId, target := genreId }] }

/-- Per-film body of the `films.forEach` loop: add the film node, then
for each genre add-or-reuse a genre node and push a link, then for the
first director (if any) add-or-reuse a director node and push a link. -/
noncomputable def addFilm (rnd : Nat → ℝ) (st : BuildState) (film : Film) : BuildState :=
  let filmId := filmNodeId film
  let st1 := addNode rnd st filmId NodeType.film film.title (some film)
  let st2 := film.genres.foldl (genreStep rnd filmId) st1
  match film.directors with
  | [] => st2
  | d :: _ =>
    let dirId := "d-" ++ d
    let s3 := addNode rnd st2 dirId NodeType.director d none
    { s3 with links := s3.links ++ [{ source := filmId, target := dirId }] }

structure Graph where
  nodes : List Node
  links : List Link

/-- The graph-building effect: fold `addFilm` over the film list starting
from empty collections. -/
noncomputable def buildGraph (films : List Film) (rnd : Nat → ℝ) : Graph :=
  let st := films.foldl (addFilm rnd) { nodes := [], links := [], nodeMap := [], rc := 0 }
  { nodes := st.nodes, links := st.links }

/-- The hit-test predicate used by mouse-down, mouse-move and
double-click: squared distance from the pointer to the node center is
strictly below `(radius + 10) ^ 2`. -/
noncomputable def inHit (px py : ℝ) (n : Node) : Prop :=
  (n.x - px) * (n.x - px) + (n.y - py) * (n.y - py) < (n.radius + 10) ^ 2

open Classical in
/-- The hit-test itself: `nodes.find(...)`, i.e. the first node in
insertion order satisfying `inHit`. -/
noncomputable def hitTest (nodes : List Node) (px py : ℝ) : Option Node :=
  nodes.find? (fun n => decide (inHit px py n))

structure SimState where
  nodes : List Node
  links : List Link
  dragged : Option Nat
  hovered : Option String
  width : ℝ
  height : ℝ

/-- The centering-gravity update of one node in the force loop:
`v += (viewportCenter - position) * 0.03`. -/
noncomputable def centerNode (w h : ℝ) (nodes : List Node) (i : Nat) : List Node :=
  match nodes[i]? with
  | some a =>
    nodes.set i
      { a with vx := a.vx + (w / 2 - a.x) * 0.03, vy := a.vy + (h / 2 - a.y) * 0.03 }
  | none => nodes

/-- The distance used as the repulsion denominator:
`Math.sqrt(dx*dx + dy*dy) || 1`. -/
noncomputable def repulsionDist (dx dy : ℝ) : ℝ :=
  jsOr (Real.sqrt (dx * dx + dy * dy)) 1

open Classical in
/-- The inner body of the all-vs-all repulsion loop for the pair `(i, j)`:
when the (floored) distance is below 300, apply the inverse-square
impulse `1500 / dist²` to `i` and its negation to `j`. -/
noncomputable def repelPair (nodes : List Node) (i j : Nat) : List Node :=
  match nodes[i]?, nodes[j]? with
  | some a, some b =>
    let dx := a.x - b.x
    let dy := a.y - b.y
    let dist := repulsionDist dx dy
    if dist < 300 then
      let force := 1500 / (dist * dist)
      let fx := dx / dist * force
      let fy := dy / dist * force
      (nodes.set i { a with vx := a.vx + fx, vy := a.vy + fy }).set j
        { b with vx := b.vx - fx, vy := b.vy - fy }
    else nodes
  | _, _ => nodes

/-- The inner `for (let j = i + 1; ...)` repulsion loop. -/
noncomputable def repelInner (nodes : List Node) (i : Nat) : List Node :=
  (List.range' (i + 1) (nodes.length - (i + 1))).foldl (fun ns j => repelPair ns i j) nodes

/-- The outer force loop: for every node index, skip it entirely when it
is the dragged node (`continue`), otherwise apply centering gravity to it
and then the repulsion inner loop against all higher indices. -/
noncomputable def forcesPass (s : SimState) : List Node :=
  (List.range s.nodes.length).foldl
    (fun ns i =>
      if s.dragged = some i then ns
      else repelInner (centerNode s.width s.height ns i) i)
    s.nodes

open Classical in
/-- The guarded endpoint write of the spring loop: the impulse is applied
unless the endpoint is the dragged node. -/
noncomputable def setUnlessDragged (dragIdx : Option Nat) (ns : List Node) (i : Nat)
    (m : Node) : List Node :=
  if dragIdx = some i then ns else ns.set i m

open Classical in
/-- The body of the spring loop for one link: find the source and target
nodes by id (`nodes.find`), compute the spring force
`(dist - 100) * 0.08`, and add the impulse to each endpoint unless that
endpoint is the dragged node.  Endpoint identity is the index of the
first node whose id matches, mirroring object identity of `find`. -/
noncomputable def applyLink (dragIdx : Option Nat) (nodes : List Node) (lk : Link) : List Node :=
  match nodes.findIdx? (fun n => n.id == lk.source),
        nodes.findIdx? (fun n => n.id == lk.target) with
  | some si, some ti =>
    match nodes[si]?, nodes[ti]? with
    | some src, some tgt =>
      let dx := tgt.x - src.x
      let dy := tgt.y - src.y
      let dist := jsOr (Real.sqrt (dx * dx + dy * dy)) 1
      let force := (dist - 100) * 0.08
      let fx := dx / dist * force
      let fy := dy / dist * force
      let ns1 := setUnlessDragged dragIdx nodes si
        { src with vx := src.vx + fx, vy := src.vy + fy }
      match ns1[ti]? with
      | some tgt2 => setUnlessDragged dragIdx ns1 ti
          { tgt2 with vx := tgt2.vx - fx, vy := tgt2.vy - fy }
      | none => ns1
    | _, _ => nodes
  | _, _ => nodes

/-- The `links.forEach` spring pass. -/
noncomputable def springPass (dragIdx : Option Nat) (links : List Link) (nodes : List Node) : List Node :=
  links.foldl (applyLink dragIdx) nodes

/-- Velocity magnitude of a node, `Math.sqrt(vx*vx + vy*vy)`. -/
noncomputable def speed (n : Node) : ℝ :=
  Real.sqrt (n.vx * n.vx + n.vy * n.vy)

open Classical in
/-- The integration applied to a non-dragged node: cap the velocity
magnitude at 15 by rescaling, multiply by the damping factor 0.85, apply
the extra hover damping 0.1 when the node is hovered, then add the
velocity to the position. -/
noncomputable def integrateNode (hovered : Option String) (n : Node) : Node :=
  let v := speed n
  let n1 := if v > 15 then { n with vx := n.vx / v * 15, vy := n.vy / v * 15 } else n
  let n2 := { n1 with vx := n1.vx * 0.85, vy := n1.vy * 0.85 }
  let n3 := if hovered = some n.id then { n2 with vx := n2.vx * 0.1, vy := n2.vy * 0.1 } else n2
  { n3 with x := n3.x + n3.vx, y := n3.y + n3.vy }

open Classical in
/-- The x-axis boundary handling applied to every node: clamp to the left
bound (negating vx), then clamp to the right bound (negating vx), with
padding `radius + 10`. -/
noncomputable def xBounds (w : ℝ) (n : Node) : Node :=
  let p := n.radius + 10
  let n1 := if n.x < p then { n with x := p, vx := n.vx * (-1) } else n
  if n1.x > w - p then { n1 with x := w - p, vx := n1.vx * (-1) } else n1

open Classical in
/-- The y-axis boundary handling, run after the x-axis handling. -/
noncomputable def yBounds (h : ℝ) (n : Node) : Node :=
  let p := n.radius + 10
  let n1 := if n.y < p then { n with y := p, vy := n.vy * (-1) } else n
  if n1.y > h - p then { n1 with y := h - p, vy := n1.vy * (-1) } else n1

/-- The full boundary handling of one node: x-axis clamps then y-axis
clamps, as the four sequential `if`s in the source. -/
noncomputable def applyBounds (w h : ℝ) (n : Node) : Node :=
  yBounds h (xBounds w n)

/-- The body of the update loop for the node at index `i`: integrate
unless the node is the dragged one, then apply the boundary handling
(which the source applies to every node, dragged included). -/
noncomputable def updateNode (s : SimState) (i : Nat) (n : Node) : Node :=
  let n1 := if s.dragged = some i then n else integrateNode s.hovered n
  applyBounds s.width s.height n1

/-- Structurally transparent indexed map, used to model the update
`forEach` with the node's position in the array made explicit. -/
def listMapIdx {α : Type} (f : Nat → α → α) : Nat → List α → List α
  | _, [] => []
  | k, a :: as => f k a :: listMapIdx f (k + 1) as

/-- The update pass: integration plus boundary handling over all nodes. -/
noncomputable def updatePass (s : SimState) (nodes : List Node) : List Node :=
  listMapIdx (updateNode s) 0 nodes

/-- One physics step of `animate` (the drawing part has no effect on the
simulation state): forces, springs, then position updates. -/
noncomputable def step (s : SimState) : SimState :=
  { s with nodes := updatePass s (springPass s.dragged s.links (forcesPass s)) }

/-- The pointer-move drag effect: while a node is dragged, its position
is set to the pointer and its velocity forced to zero. -/
noncomputable def pointerMove (s : SimState) (px py : ℝ) : SimState :=
  match s.dragged with
  | some i =>
    match s.nodes[i]? with
    | some n => { s with nodes := s.nodes.set i { n with x := px, y := py, vx := 0, vy := 0 } }
    | none => s
  | none => s

/-- Common concrete colorless film node used by concrete instances. -/
noncomputable def mkNode (id : String) (x y vx vy radius : ℝ) : Node :=
  { id := id, type := NodeType.film, label := id, x := x, y := y,
    vx := vx, vy := vy, radius := radius, color := "#0ea5e9", data := none }

/-- C2 (counterexample): at separation (1/2, 0) the Euclidean distance is
1/2, strictly between 0 and 1, yet the denominator used by the repulsion
computation is 1/2 and not `max (1/2) 1`, and the resulting force
magnitude 6000 exceeds the repulsion coefficient 1500: the claim's
"floored at max(distance, 1)" reading is false on the code, which only
substitutes 1 when the distance is exactly 0. -/
theorem C2_counterexample :
    repulsionDist (1/2) 0 = 1/2 ∧
    repulsionDist (1/2) 0 ≠ max (1/2) 1 ∧
    1500 < 1500 / (repulsionDist (1/2) 0 * repulsionDist (1/2) 0) := by
  have hs : Real.sqrt ((1/2 : ℝ) * (1/2) + 0 * 0) = 1/2 := by
    rw [show ((1/2 : ℝ) * (1/2) + 0 * 0) = (1/2) ^ 2 by ring]
    exact Real.sqrt_sq (by norm_num)
  have h : repulsionDist (1/2) 0 = 1/2 := by
    rw [repulsionDist, jsOr, hs]
    norm_num
  refine ⟨h, ?_, ?_⟩ <;> rw [h] <;> norm_num

/-- C2 (amended): the repulsion denominator is replaced by 1 exactly when
the Euclidean distance is 0 (so the computation is total and never
divides by zero, the denominator being always positive), and whenever the
distance is at least 1 the inverse-square force magnitude is at most the
repulsion coefficient 1500; for distances strictly between 0 and 1 the
true distance is used and the force may exceed the coefficient. -/
theorem C2_zero_guard_amended (dx dy : ℝ) :
    0 < repulsionDist dx dy ∧
    (Real.sqrt (dx * dx + dy * dy) = 0 → repulsionDist dx dy = 1) ∧
    (1 ≤ Real.sqrt (dx * dx + dy * dy) →
      1500 / (repulsionDist dx dy * repulsionDist dx dy) ≤ 1500) := by
  have hnn : 0 ≤ Real.sqrt (dx * dx + dy * dy) := Real.sqrt_nonneg _
  refine ⟨?_, ?_, ?_⟩
  · rw [repulsionDist, jsOr]
    split
    · norm_num
    · rename_i h
      exact lt_of_le_of_ne hnn (Ne.symm h)
  · intro h
    rw [repulsionDist, jsOr, if_pos h]
  · intro h
    have hne : Real.sqrt (dx * dx + dy * dy) ≠ 0 := by linarith
    rw [repulsionDist, jsOr, if_neg hne]
    rw [div_le_iff₀ (by nlinarith)]
    nlinarith

/-- Witness for C2 (amended) at the concrete separations (0, 0) and
(3, 4). -/
theorem C2_zero_guard_amended_witness :
    repulsionDist 0 0 = 1 ∧
    1500 / (repulsionDist 3 4 * repulsionDist 3 4) ≤ 1500 := by
  have h0 : Real.sqrt ((0 : ℝ) * 0 + 0 * 0) = 0 := by
    rw [show ((0 : ℝ) * 0 + 0 * 0) = 0 by ring, Real.sqrt_zero]
  have h5 : Real.sqrt ((3 : ℝ) * 3 + 4 * 4) = 5 := by
    rw [show ((3 : ℝ) * 3 + 4 * 4) = 5 ^ 2 by ring]
    exact Real.sqrt_sq (by norm_num)
  exact ⟨(C2_zero_guard_amended 0 0).2.1 h0,
    (C2_zero_guard_amended 3 4).2.2 (by rw [h5]; norm_num)⟩

/-- Concrete node for the C5 counterexample: radius 5, sitting at x = 10
inside a degenerate viewport of width 20, past the right bound
20 - 5 - 10 = 5 but also short of the left padding 15. -/
noncomputable def nC5 : Node := mkNode "c5" 10 100 3 0 5

/-- C5 (counterexample): in a viewport of width 20 the node `nC5`
(radius 5, x = 10, vx = 3) exceeds the right boundary 20 - radius - 10;
the boundary pass does clamp its x-position, but its x-velocity is
negated twice (the left clamp fires first) and ends up unchanged instead
of flipped, refuting the claim as stated for every viewport. -/
theorem C5_counterexample :
    nC5.x > 20 - nC5.radius - 10 ∧
    (applyBounds 20 600 nC5).x = 20 - nC5.radius - 10 ∧
    (applyBounds 20 600 nC5).vx = nC5.vx ∧
    (applyBounds 20 600 nC5).vx ≠ -nC5.vx := by
  have hb : applyBounds 20 600 nC5 = { nC5 with x := 5, vx := 3 } := by
    simp only [applyBounds, xBounds, yBounds, nC5, mkNode]
    norm_num
  rw [hb]
  simp only [nC5, mkNode]
  norm_num

/-- C5 (amended): provided the viewport is wide enough to contain the
node (2 * (radius + 10) ≤ width), a node whose position exceeds the
right boundary has, after the x-axis boundary handling, its x-position
clamped to exactly width - radius - 10 and its x-velocity sign flipped,
while its y-position and y-velocity are untouched by that x-axis
handling. -/
theorem C5_right_bounce (w : ℝ) (n : Node)
    (hw : 2 * (n.radius + 10) ≤ w) (hx : n.x > w - (n.radius + 10)) :
    (xBounds w n).x = w - n.radius - 10 ∧
    (xBounds w n).vx = -n.vx ∧
    (xBounds w n).y = n.y ∧
    (xBounds w n).vy = n.vy := by
  have h1 : ¬ n.x < n.radius + 10 := by linarith
  simp only [xBounds, if_neg h1, if_pos hx]
  refine ⟨by ring, by ring, trivial, trivial⟩

/-- Witness for C5 (amended): radius-5 node at x = 790 in a width-800
viewport. -/
theorem C5_right_bounce_witness :
    2 * ((mkNode "w5" 790 100 2 0 5).radius + 10) ≤ 800 ∧
    (mkNode "w5" 790 100 2 0 5).x > 800 - ((mkNode "w5" 790 100 2 0 5).radius + 10) ∧
    (xBounds 800 (mkNode "w5" 790 100 2 0 5)).x = 800 - (mkNode "w5" 790 100 2 0 5).radius - 10 := by
  refine ⟨?_, ?_, ?_⟩
  · simp only [mkNode]; norm_num
  · simp only [mkNode]; norm_num
  · exact (C5_right_bounce 800 (mkNode "w5" 790 100 2 0 5)
      (by simp only [mkNode]; norm_num) (by simp only [mkNode]; norm_num)).1

/-- Scaling both components of a velocity by a common nonnegative factor
scales its magnitude by that factor. -/
theorem sqrtPair_scale (a b c : ℝ) (hc : 0 ≤ c) :
    Real.sqrt ((a * c) * (a * c) + (b * c) * (b * c)) = Real.sqrt (a * a + b * b) * c := by
  rw [show (a * c) * (a * c) + (b * c) * (b * c) = (a * a + b * b) * (c * c) by ring,
    Real.sqrt_mul (add_nonneg (mul_self_nonneg a) (mul_self_nonneg b)),
    Real.sqrt_mul_self hc]

/-- The x-axis boundary handling never changes the velocity magnitude:
it only negates the x component. -/
theorem speed_xBounds (w : ℝ) (n : Node) : speed (xBounds w n) = speed n := by
  simp only [xBounds, speed]
  split <;> split <;> first | rfl | (congr 1; ring)

/-- The y-axis boundary handling never changes the velocity magnitude. -/
theorem speed_yBounds (h : ℝ) (n : Node) : speed (yBounds h n) = speed n := by
  simp only [yBounds, speed]
  split <;> split <;> first | rfl | (congr 1; ring)

/-- Boundary bounce preserves the velocity magnitude. -/
theorem speed_applyBounds (w h : ℝ) (n : Node) : speed (applyBounds w h n) = speed n := by
  rw [applyBounds, speed_yBounds, speed_xBounds]

/-- After the velocity cap, the damping factor and the optional hover
damping, the integrated node's velocity magnitude is at most 15. -/
theorem speed_integrateNode_le (hov : Option String) (n : Node) :
    speed (integrateNode hov n) ≤ 15 := by
  have hsn : (0 : ℝ) ≤ Real.sqrt (n.vx * n.vx + n.vy * n.vy) := Real.sqrt_nonneg _
  by_cases hv : speed n > 15
  · have hv' : (15 : ℝ) < Real.sqrt (n.vx * n.vx + n.vy * n.vy) := hv
    have hvu : Real.sqrt (n.vx * n.vx + n.vy * n.vy) > 15 := hv
    have hvz : Real.sqrt (n.vx * n.vx + n.vy * n.vy) ≠ 0 := by linarith
    by_cases hh : hov = some n.id
    · have step1 : speed (integrateNode hov n) =
          Real.sqrt (n.vx * n.vx + n.vy * n.vy) *
            (15 / Real.sqrt (n.vx * n.vx + n.vy * n.vy) * 0.85 * 0.1) := by
        simp only [integrateNode, speed, if_pos hvu, if_pos hh]
        rw [← sqrtPair_scale n.vx n.vy _ (by positivity)]
        congr 1
        ring
      rw [step1,
        show Real.sqrt (n.vx * n.vx + n.vy * n.vy) *
            (15 / Real.sqrt (n.vx * n.vx + n.vy * n.vy) * 0.85 * 0.1) =
          Real.sqrt (n.vx * n.vx + n.vy * n.vy) / Real.sqrt (n.vx * n.vx + n.vy * n.vy) *
            (15 * 0.85 * 0.1) by ring,
        div_self hvz]
      norm_num
    · have step1 : speed (integrateNode hov n) =
          Real.sqrt (n.vx * n.vx + n.vy * n.vy) *
            (15 / Real.sqrt (n.vx * n.vx + n.vy * n.vy) * 0.85) := by
        simp only [integrateNode, speed, if_pos hvu, if_neg hh]
        rw [← sqrtPair_scale n.vx n.vy _ (by positivity)]
        congr 1
        ring
      rw [step1,
        show Real.sqrt (n.vx * n.vx + n.vy * n.vy) *
            (15 / Real.sqrt (n.vx * n.vx + n.vy * n.vy) * 0.85) =
          Real.sqrt (n.vx * n.vx + n.vy * n.vy) / Real.sqrt (n.vx * n.vx + n.vy * n.vy) *
            (15 * 0.85) by ring,
        div_self hvz]
      norm_num
  · have hv' : Real.sqrt (n.vx * n.vx + n.vy * n.vy) ≤ 15 := not_lt.mp hv
    have hvu : ¬ Real.sqrt (n.vx * n.vx + n.vy * n.vy) > 15 := hv
    by_cases hh : hov = some n.id
    · have step1 : speed (integrateNode hov n) =
          Real.sqrt (n.vx * n.vx + n.vy * n.vy) * (0.85 * 0.1) := by
        simp only [integrateNode, speed, if_neg hvu, if_pos hh]
        rw [← sqrtPair_scale n.vx n.vy _ (by norm_num)]
        congr 1
        ring
      rw [step1]
      nlinarith
    · have step1 : speed (integrateNode hov n) =
          Real.sqrt (n.vx * n.vx + n.vy * n.vy) * 0.85 := by
        simp only [integrateNode, speed, if_neg hvu, if_neg hh]
        rw [← sqrtPair_scale n.vx n.vy _ (by norm_num)]
      rw [step1]
      nlinarith

/-- Index access through the indexed map underlying the update pass. -/
theorem listMapIdx_getElem {α : Type} (f : Nat → α → α) (k : Nat) (l : List α) (i : Nat) :
    (listMapIdx f k l)[i]? = (l[i]?).map (f (k + i)) := by
  induction l generalizing k i with
  | nil => simp [listMapIdx]
  | cons a as ih =>
    cases i with
    | zero => simp [listMapIdx]
    | succ j =>
      simp only [listMapIdx, List.getElem?_cons_succ, ih (k + 1) j]
      rw [show k + (j + 1) = k + 1 + j by omega]

/-- C10: after the integration-and-boundary phase of a simulation step,
every node that is not the dragged one has velocity magnitude at most the
terminal velocity 15: the cap rescales larger velocities to exactly 15,
damping and hover damping only shrink the magnitude, and the boundary
bounce negates single components, preserving it. -/
theorem C10_terminal_velocity (s : SimState) (nodes : List Node) (i : Nat) (n : Node)
    (hdrag : ¬ s.dragged = some i) (hn : (updatePass s nodes)[i]? = some n) :
    speed n ≤ 15 := by
  rw [updatePass, listMapIdx_getElem, Nat.zero_add] at hn
  obtain ⟨m, hm, hfm⟩ := Option.map_eq_some'.mp hn
  rw [← hfm, updateNode]
  simp only [if_neg hdrag]
  rw [speed_applyBounds]
  exact speed_integrateNode_le s.hovered m

/-- Concrete state for the C10 witness: one non-dragged node moving at
speed 20, above the cap. -/
noncomputable def sC10 : SimState :=
  { nodes := [mkNode "c10" 300 300 20 0 5], links := [], dragged := none,
    hovered := none, width := 800, height := 600 }

/-- Witness for C10 at a concrete node whose velocity 20 exceeds the
cap. -/
theorem C10_terminal_velocity_witness :
    ¬ sC10.dragged = some 0 ∧
    speed (updateNode sC10 0 (mkNode "c10" 300 300 20 0 5)) ≤ 15 := by
  refine ⟨by simp [sC10], ?_⟩
  exact C10_terminal_velocity sC10 sC10.nodes 0
    (updateNode sC10 0 (mkNode "c10" 300 300 20 0 5)) (by simp [sC10]) rfl

/-- C6: for a two-node state with the pair within the repulsion cutoff,
the repulsion pass applies velocity impulses to the two nodes that are
componentwise negatives of each other — equal in magnitude and opposite
in direction — while leaving both positions unchanged.  (Centering and
springs are separate passes; the drag skip lives in the outer loop, so
the repulsion pass itself treats both nodes as non-dragged.) -/
theorem C6_repulsion_symmetry (a b : Node)
    (h : repulsionDist (a.x - b.x) (a.y - b.y) < 300) :
    ∃ a' b', repelInner [a, b] 0 = [a', b'] ∧
      a'.vx - a.vx = -(b'.vx - b.vx) ∧ a'.vy - a.vy = -(b'.vy - b.vy) ∧
      a'.x = a.x ∧ a'.y = a.y ∧ b'.x = b.x ∧ b'.y = b.y := by
  have hpair : repelInner [a, b] 0 = repelPair [a, b] 0 1 := by
    simp [repelInner, List.range']
  rw [hpair]
  simp only [repelPair, List.getElem?_cons_zero, List.getElem?_cons_succ, if_pos h,
    List.set_cons_zero, List.set_cons_succ]
  refine ⟨_, _, rfl, by ring, by ring, rfl, rfl, rfl, rfl⟩

/-- Witness for C6: nodes 100 apart on the x-axis, within the cutoff. -/
theorem C6_repulsion_symmetry_witness :
    repulsionDist ((mkNode "a" 0 0 0 0 5).x - (mkNode "b" 100 0 0 0 5).x)
      ((mkNode "a" 0 0 0 0 5).y - (mkNode "b" 100 0 0 0 5).y) < 300 ∧
    ∃ a' b', repelInner [mkNode "a" 0 0 0 0 5, mkNode "b" 100 0 0 0 5] 0 = [a', b'] ∧
      a'.vx - (mkNode "a" 0 0 0 0 5).vx = -(b'.vx - (mkNode "b" 100 0 0 0 5).vx) ∧
      a'.vy - (mkNode "a" 0 0 0 0 5).vy = -(b'.vy - (mkNode "b" 100 0 0 0 5).vy) := by
  have hd : repulsionDist ((mkNode "a" 0 0 0 0 5).x - (mkNode "b" 100 0 0 0 5).x)
      ((mkNode "a" 0 0 0 0 5).y - (mkNode "b" 100 0 0 0 5).y) < 300 := by
    simp only [mkNode]
    rw [repulsionDist, show ((0 : ℝ) - 100) * ((0 : ℝ) - 100) + (0 - 0) * (0 - 0) =
      100 ^ 2 by ring, Real.sqrt_sq (by norm_num), jsOr]
    norm_num
  refine ⟨hd, ?_⟩
  obtain ⟨a', b', heq, hvx, hvy, _, _, _, _⟩ :=
    C6_repulsion_symmetry (mkNode "a" 0 0 0 0 5) (mkNode "b" 100 0 0 0 5) hd
  exact ⟨a', b', heq, hvx, hvy⟩

/-- An index with a successful lookup is within bounds. -/
theorem lt_length_of_getElem? {α : Type} {l : List α} {i : Nat} {a : α}
    (h : l[i]? = some a) : i < l.length := by
  by_contra hc
  rw [List.getElem?_eq_none (by omega)] at h
  exact Option.noConfusion h

/-- C7: for a link whose endpoints sit exactly at the rest length 100,
the spring pass leaves both endpoint nodes entirely unchanged: the spring
force `(dist - 100) * 0.08` vanishes at equilibrium, so the impulse added
to each endpoint's velocity is zero. -/
theorem C7_spring_equilibrium (dragIdx : Option Nat) (nodes : List Node) (lk : Link)
    (si ti : Nat) (src tgt : Node)
    (hs : nodes.findIdx? (fun n => n.id == lk.source) = some si)
    (ht : nodes.findIdx? (fun n => n.id == lk.target) = some ti)
    (hsrc : nodes[si]? = some src) (htgt : nodes[ti]? = some tgt)
    (hdist : Real.sqrt ((tgt.x - src.x) * (tgt.x - src.x) +
      (tgt.y - src.y) * (tgt.y - src.y)) = 100) :
    (applyLink dragIdx nodes lk)[si]? = some src ∧
    (applyLink dragIdx nodes lk)[ti]? = some tgt := by
  have hne : si ≠ ti := by
    intro he
    subst he
    rw [hsrc] at htgt
    obtain rfl : src = tgt := Option.some.inj htgt
    rw [show (src.x - src.x) * (src.x - src.x) + (src.y - src.y) * (src.y - src.y) =
      (0 : ℝ) by ring, Real.sqrt_zero] at hdist
    norm_num at hdist
  have hsl : si < nodes.length := lt_length_of_getElem? hsrc
  have htl : ti < nodes.length := lt_length_of_getElem? htgt
  have hd100 : jsOr (Real.sqrt ((tgt.x - src.x) * (tgt.x - src.x) +
      (tgt.y - src.y) * (tgt.y - src.y))) 1 = 100 := by
    rw [hdist, jsOr]
    norm_num
  have hsrc' : ({ src with
      vx := src.vx + (tgt.x - src.x) / 100 * ((100 - 100) * 0.08),
      vy := src.vy + (tgt.y - src.y) / 100 * ((100 - 100) * 0.08) } : Node) = src := by
    cases src
    simp only [Node.mk.injEq]
    norm_num
  have htgt' : ∀ m : Node, ({ m with
      vx := m.vx - (tgt.x - src.x) / 100 * ((100 - 100) * 0.08),
      vy := m.vy - (tgt.y - src.y) / 100 * ((100 - 100) * 0.08) } : Node) = m := by
    intro m
    cases m
    simp only [Node.mk.injEq]
    norm_num
  simp only [applyLink, setUnlessDragged, hs, ht, hsrc, htgt, hd100, hsrc', htgt']
  by_cases h1 : dragIdx = some si
  · simp only [if_pos h1, htgt, htgt']
    by_cases h2 : dragIdx = some ti
    · simp only [if_pos h2]
      exact ⟨hsrc, htgt⟩
    · simp only [if_neg h2]
      exact ⟨by rw [List.getElem?_set_ne (Ne.symm hne)]; exact hsrc,
        List.getElem?_set_self htl⟩
  · simp only [if_neg h1]
    rw [List.getElem?_set_ne hne, htgt]
    simp only [htgt']
    by_cases h2 : dragIdx = some ti
    · simp only [if_pos h2]
      exact ⟨by rw [List.getElem?_set_self hsl], by rw [List.getElem?_set_ne hne]; exact htgt⟩
    · simp only [if_neg h2]
      refine ⟨?_, ?_⟩
      · rw [List.getElem?_set_ne (Ne.symm hne), List.getElem?_set_self hsl]
      · rw [List.getElem?_set_self (by rw [List.length_set]; exact htl)]

/-- Witness for C7: two linked nodes exactly 100 apart on the x-axis. -/
theorem C7_spring_equilibrium_witness :
    Real.sqrt (((mkNode "b" 100 0 0 0 5).x - (mkNode "a" 0 0 0 0 5).x) *
        ((mkNode "b" 100 0 0 0 5).x - (mkNode "a" 0 0 0 0 5).x) +
      ((mkNode "b" 100 0 0 0 5).y - (mkNode "a" 0 0 0 0 5).y) *
        ((mkNode "b" 100 0 0 0 5).y - (mkNode "a" 0 0 0 0 5).y)) = 100 ∧
    (applyLink none [mkNode "a" 0 0 0 0 5, mkNode "b" 100 0 0 0 5]
        { source := "a", target := "b" })[0]? = some (mkNode "a" 0 0 0 0 5) ∧
    (applyLink none [mkNode "a" 0 0 0 0 5, mkNode "b" 100 0 0 0 5]
        { source := "a", target := "b" })[1]? = some (mkNode "b" 100 0 0 0 5) := by
  have hdist : Real.sqrt (((mkNode "b" 100 0 0 0 5).x - (mkNode "a" 0 0 0 0 5).x) *
      ((mkNode "b" 100 0 0 0 5).x - (mkNode "a" 0 0 0 0 5).x) +
    ((mkNode "b" 100 0 0 0 5).y - (mkNode "a" 0 0 0 0 5).y) *
      ((mkNode "b" 100 0 0 0 5).y - (mkNode "a" 0 0 0 0 5).y)) = 100 := by
    simp only [mkNode]
    rw [show ((100 : ℝ) - 0) * ((100 : ℝ) - 0) + ((0 : ℝ) - 0) * ((0 : ℝ) - 0) =
      100 ^ 2 by ring]
    exact Real.sqrt_sq (by norm_num)
  have happ := C7_spring_equilibrium none
    [mkNode "a" 0 0 0 0 5, mkNode "b" 100 0 0 0 5] { source := "a", target := "b" }
    0 1 (mkNode "a" 0 0 0 0 5) (mkNode "b" 100 0 0 0 5)
    (by simp [List.findIdx?_cons, mkNode]) (by simp [List.findIdx?_cons, mkNode])
    rfl rfl hdist
  exact ⟨hdist, happ.1, happ.2⟩

/-- C4: the hit-test returns no node exactly when no node's hit circle
(radius + 10, strictly) contains the pointer, and any returned node both
satisfies the hit predicate and is the first satisfying node in the
graph's insertion order: every node at a strictly earlier index fails the
predicate.  In particular a pointer strictly inside radius + 10 hits and
one strictly outside does not. -/
theorem C4_hit_test (nodes : List Node) (px py : ℝ) :
    (hitTest nodes px py = none ↔ ∀ n ∈ nodes, ¬ inHit px py n) ∧
    (∀ n, hitTest nodes px py = some n →
      inHit px py n ∧
      ∃ i : Nat, nodes[i]? = some n ∧
        ∀ (j : Nat) (m : Node), j < i → nodes[j]? = some m → ¬ inHit px py m) := by
  classical
  constructor
  · rw [hitTest, List.find?_eq_none]
    constructor
    · intro h n hn
      have := h n hn
      simpa using this
    · intro h n hn
      simpa using h n hn
  · intro n
    induction nodes with
    | nil =>
      intro hn
      rw [hitTest] at hn
      exact Option.noConfusion hn
    | cons a as ih =>
      intro hn
      rw [hitTest, List.find?_cons] at hn
      by_cases hp : inHit px py a
      · rw [decide_eq_true hp] at hn
        obtain rfl : a = n := Option.some.inj hn
        exact ⟨hp, 0, by simp, fun j m hj _ => absurd hj (Nat.not_lt_zero j)⟩
      · rw [decide_eq_false hp] at hn
        obtain ⟨h1, i, hi, hfirst⟩ := ih hn
        refine ⟨h1, i + 1, by simpa using hi, ?_⟩
        intro j m hj hm
        cases j with
        | zero =>
          rw [List.getElem?_cons_zero] at hm
          obtain rfl : a = m := Option.some.inj hm
          exact hp
        | succ k =>
          exact hfirst k m (by omega) (by simpa using hm)

/-- Witness for C4: a radius-5 node at the origin; the pointer at
(14, 0) — distance 14 < 15 = radius + 10 — hits it (and it is the first
match), while the pointer at (16, 0) — distance 16 > 15 — hits
nothing. -/
theorem C4_hit_test_witness :
    (inHit 14 0 (mkNode "h" 0 0 0 0 5) ∧
      ∃ i : Nat, ([mkNode "h" 0 0 0 0 5])[i]? = some (mkNode "h" 0 0 0 0 5) ∧
        ∀ (j : Nat) (m : Node), j < i →
          ([mkNode "h" 0 0 0 0 5])[j]? = some m → ¬ inHit 14 0 m) ∧
    hitTest [mkNode "h" 0 0 0 0 5] 16 0 = none := by
  classical
  constructor
  · refine (C4_hit_test [mkNode "h" 0 0 0 0 5] 14 0).2 (mkNode "h" 0 0 0 0 5) ?_
    rw [hitTest, List.find?_cons,
      decide_eq_true (show inHit 14 0 (mkNode "h" 0 0 0 0 5) by
        rw [inHit, mkNode]; norm_num)]
  · refine (C4_hit_test [mkNode "h" 0 0 0 0 5] 16 0).1.mpr ?_
    intro n hn
    rw [List.mem_singleton] at hn
    subst hn
    rw [inHit, mkNode]
    norm_num

/-- First film of the end-to-end scenario. -/
noncomputable def filmA : Film :=
  { id := 1, title := "A", rating := 8, genres := ["Drama"], directors := ["X"] }

/-- Second film of the end-to-end scenario. -/
noncomputable def filmB : Film :=
  { id := 2, title := "B", rating := 5, genres := ["Drama"], directors := ["Y"] }

/-- C3: building the graph from the two-film scenario yields exactly the
five nodes f-1, g-Drama, d-X, f-2, d-Y (in insertion order) and exactly
four edges; f-1 has radius 5 + 8*0.8 = 11.4 and f-2 radius 5 + 5*0.8 = 9;
the shared genre Drama yields a single genre node referenced by two
edges. -/
theorem C3_end_to_end (rnd : Nat → ℝ) :
    ((buildGraph [filmA, filmB] rnd).nodes.map Node.id) =
      ["f-1", "g-Drama", "d-X", "f-2", "d-Y"] ∧
    (buildGraph [filmA, filmB] rnd).nodes.length = 5 ∧
    (buildGraph [filmA, filmB] rnd).links =
      [{ source := "f-1", target := "g-Drama" }, { source := "f-1", target := "d-X" },
       { source := "f-2", target := "g-Drama" }, { source := "f-2", target := "d-Y" }] ∧
    (buildGraph [filmA, filmB] rnd).links.length = 4 ∧
    ((buildGraph [filmA, filmB] rnd).nodes.map Node.radius) = [11.4, 7, 6, 9, 6] ∧
    ((buildGraph [filmA, filmB] rnd).nodes.map Node.type) =
      [NodeType.film, NodeType.genre, NodeType.director, NodeType.film, NodeType.director] ∧
    ((buildGraph [filmA, filmB] rnd).links.filter
      (fun lk => lk.target == "g-Drama")).length = 2 := by
  have hbuild : buildGraph [filmA, filmB] rnd =
      { nodes :=
          [{ id := "f-1", type := NodeType.film, label := "A", x := rnd 0 * 800,
             y := rnd 1 * 600, vx := 0, vy := 0, radius := 5 + ratingOf (some filmA) * 0.8,
             color := "#0ea5e9", data := some filmA },
           { id := "g-Drama", type := NodeType.genre, label := "Drama", x := rnd 2 * 800,
             y := rnd 3 * 600, vx := 0, vy := 0, radius := 7,
             color := "#ec4899", data := none },
           { id := "d-X", type := NodeType.director, label := "X", x := rnd 4 * 800,
             y := rnd 5 * 600, vx := 0, vy := 0, radius := 6,
             color := "#fbbf24", data := none },
           { id := "f-2", type := NodeType.film, label := "B", x := rnd 6 * 800,
             y := rnd 7 * 600, vx := 0, vy := 0, radius := 5 + ratingOf (some filmB) * 0.8,
             color := "#0ea5e9", data := some filmB },
           { id := "d-Y", type := NodeType.director, label := "Y", x := rnd 8 * 800,
             y := rnd 9 * 600, vx := 0, vy := 0, radius := 6,
             color := "#fbbf24", data := none }],
        links :=
          [{ source := "f-1", target := "g-Drama" }, { source := "f-1", target := "d-X" },
           { source := "f-2", target := "g-Drama" }, { source := "f-2", target := "d-Y" }] } := by
    have t1 : "f-" ++ toString (1 : Int) = "f-1" := rfl
    have t2 : "f-" ++ toString (2 : Int) = "f-2" := rfl
    simp [buildGraph, addFilm, genreStep, addNode, filmNodeId, filmA, filmB, t1, t2]
  rw [hbuild]
  refine ⟨by simp, by simp, rfl, by simp, ?_, by simp, by simp⟩
  simp only [List.map_cons, List.map_nil, ratingOf, filmA, filmB]
  norm_num

/-- Edge contribution of a single film: one link per genre, plus one link
to the first director when the director list is non-empty. -/
def filmLinks (film : Film) : List Link :=
  film.genres.map (fun g => { source := filmNodeId film, target := "g-" ++ g }) ++
  match film.directors with
  | [] => []
  | d :: _ => [{ source := filmNodeId film, target := "d-" ++ d }]

/-- The (at most one) director link of a film: absent for an empty
director list, otherwise a single link to the first director. -/
def dirLink (film : Film) : List Link :=
  match film.directors with
  | [] => []
  | d :: _ => [{ source := filmNodeId film, target := "d-" ++ d }]

/-- A link is a director link when its target id carries the `d-`
namespace prefix. -/
def isDirLink (lk : Link) : Bool := ['d', '-'].isPrefixOf lk.target.data

/-- The addNode step never touches the link list. -/
theorem addNode_links (rnd : Nat → ℝ) (st : BuildState) (id : String)
    (type : NodeType) (label : String) (data : Option Film) :
    (addNode rnd st id type label data).links = st.links := by
  rw [addNode.eq_def]
  split <;> rfl

/-- The genre loop appends exactly one link per genre, in order. -/
theorem genreFold_links (rnd : Nat → ℝ) (fid : String) (gs : List String) (st : BuildState) :
    (gs.foldl (genreStep rnd fid) st).links =
      st.links ++ gs.map (fun g => { source := fid, target := "g-" ++ g }) := by
  induction gs generalizing st with
  | nil => simp
  | cons g gs ih =>
    rw [List.foldl_cons, ih]
    simp [genreStep, addNode_links]

/-- One `addFilm` appends exactly that film's edge contribution. -/
theorem addFilm_links (rnd : Nat → ℝ) (st : BuildState) (film : Film) :
    (addFilm rnd st film).links = st.links ++ filmLinks film := by
  rw [addFilm, filmLinks]
  cases hd : film.directors with
  | nil =>
    simp [genreFold_links, addNode_links]
  | cons d ds =>
    simp [genreFold_links, addNode_links]

/-- The builder's link list is the concatenation of the per-film edge
contributions. -/
theorem buildGraph_links (films : List Film) (rnd : Nat → ℝ) :
    (buildGraph films rnd).links = films.flatMap filmLinks := by
  suffices h : ∀ st : BuildState,
      (films.foldl (addFilm rnd) st).links = st.links ++ films.flatMap filmLinks by
    rw [buildGraph]
    simpa using h { nodes := [], links := [], nodeMap := [], rc := 0 }
  induction films with
  | nil => intro st; simp
  | cons f fs ih =>
    intro st
    rw [List.foldl_cons, ih, addFilm_links]
    simp

/-- A genre link never carries the director prefix. -/
theorem isDirLink_genre (fid g : String) :
    isDirLink { source := fid, target := "g-" ++ g } = false := by
  rw [isDirLink]
  show List.isPrefixOf ['d', '-'] (("g-" ++ g).data) = false
  rw [String.data_append]
  show List.isPrefixOf ['d', '-'] ('g' :: '-' :: g.data) = false
  simp [List.isPrefixOf]

/-- A director link always carries the director prefix. -/
theorem isDirLink_dir (fid d : String) :
    isDirLink { source := fid, target := "d-" ++ d } = true := by
  rw [isDirLink]
  show List.isPrefixOf ['d', '-'] (("d-" ++ d).data) = true
  rw [String.data_append]
  show List.isPrefixOf ['d', '-'] ('d' :: '-' :: d.data) = true
  simp [List.isPrefixOf]

/-- Filtering one film's edge contribution down to director links keeps
exactly its (at most one) director link. -/
theorem filmLinks_filter_dir (film : Film) :
    (filmLinks film).filter isDirLink = dirLink film := by
  rw [filmLinks, dirLink, List.filter_append]
  have hg : (film.genres.map
      (fun g => ({ source := filmNodeId film, target := "g-" ++ g } : Link))).filter
        isDirLink = [] := by
    rw [List.filter_eq_nil_iff]
    intro lk hlk
    obtain ⟨g, _, rfl⟩ := List.mem_map.mp hlk
    simp [isDirLink_genre]
  rw [hg]
  cases film.directors with
  | nil => rfl
  | cons d ds => simp [List.filter_cons, isDirLink_dir]

/-- C8: the director links of the built graph are exactly one link per
film with a non-empty director list, each connecting the film's node to
the node of the first director in the list; films with an empty director
list contribute none, so a film with three directors still yields exactly
one director edge. -/
theorem C8_director_limiting (films : List Film) (rnd : Nat → ℝ) :
    ((buildGraph films rnd).links.filter isDirLink) = films.flatMap dirLink ∧
    (∀ film : Film, (dirLink film).length = if film.directors.isEmpty then 0 else 1) ∧
    (∀ film : Film, ∀ d : String, ∀ ds : List String, film.directors = d :: ds →
      dirLink film = [{ source := filmNodeId film, target := "d-" ++ d }]) := by
  refine ⟨?_, ?_, ?_⟩
  · rw [buildGraph_links]
    induction films with
    | nil => simp
    | cons f fs ih =>
      rw [List.flatMap_cons, List.flatMap_cons, List.filter_append, ih, filmLinks_filter_dir]
  · intro film
    rw [dirLink]
    cases film.directors <;> simp
  · intro film d ds hd
    rw [dirLink, hd]

/-- The id namespace tag of each node kind: `f-`, `g-`, `d-`. -/
def kindTag : NodeType → String
  | NodeType.film => "f-"
  | NodeType.genre => "g-"
  | NodeType.director => "d-"

/-- The distinguishing first character of each namespace tag. -/
def tagChar : NodeType → Char
  | NodeType.film => 'f'
  | NodeType.genre => 'g'
  | NodeType.director => 'd'

/-- The character content of each namespace tag. -/
theorem kindTag_data (t : NodeType) : (kindTag t).data = [tagChar t, '-'] := by
  cases t <;> rfl

/-- Ids namespaced by different kinds never collide. -/
theorem kindTag_append_ne (t1 t2 : NodeType) (r1 r2 : String) (h : t1 ≠ t2) :
    kindTag t1 ++ r1 ≠ kindTag t2 ++ r2 := by
  intro he
  have hd := congrArg String.data he
  rw [String.data_append, String.data_append, kindTag_data, kindTag_data] at hd
  simp only [List.cons_append, List.nil_append, List.cons.injEq] at hd
  exact h (by cases t1 <;> cases t2 <;> simp_all [tagChar])

/-- Builder-state invariant: the de-duplication set mirrors the node ids,
all link endpoints are known ids, and every node id carries its kind's
namespace tag. -/
def BuildInv (st : BuildState) : Prop :=
  st.nodeMap = st.nodes.map Node.id ∧
  (∀ lk ∈ st.links, lk.source ∈ st.nodeMap ∧ lk.target ∈ st.nodeMap) ∧
  (∀ n ∈ st.nodes, ∃ r : String, n.id = kindTag n.type ++ r)

/-- The addNode step preserves the builder invariant, makes its id known, keeps
all previously known ids and never touches links. -/
theorem addNode_inv (rnd : Nat → ℝ) (st : BuildState) (id : String)
    (type : NodeType) (label : String) (data : Option Film)
    (hid : ∃ r : String, id = kindTag type ++ r) (h : BuildInv st) :
    BuildInv (addNode rnd st id type label data) ∧
    id ∈ (addNode rnd st id type label data).nodeMap ∧
    (∀ x ∈ st.nodeMap, x ∈ (addNode rnd st id type label data).nodeMap) := by
  obtain ⟨hmap, hlinks, htag⟩ := h
  rw [addNode.eq_def]
  split
  · rename_i hc
    exact ⟨⟨hmap, hlinks, htag⟩, List.mem_of_elem_eq_true hc, fun x hx => hx⟩
  · refine ⟨⟨?_, ?_, ?_⟩, ?_, ?_⟩
    · simp [hmap]
    · intro lk hlk
      obtain ⟨h1, h2⟩ := hlinks lk hlk
      exact ⟨List.mem_append_left _ h1, List.mem_append_left _ h2⟩
    · intro n hn
      rcases List.mem_append.mp hn with hn | hn
      · exact htag n hn
      · rw [List.mem_singleton] at hn
        subst hn
        exact hid
    · exact List.mem_append_right _ (List.mem_singleton.mpr rfl)
    · intro x hx
      exact List.mem_append_left _ hx

/-- One genre step preserves the invariant and keeps known ids known. -/
theorem genreStep_inv (rnd : Nat → ℝ) (fid : String) (s : BuildState) (g : String)
    (hfid : fid ∈ s.nodeMap) (h : BuildInv s) :
    BuildInv (genreStep rnd fid s g) ∧
    (∀ x ∈ s.nodeMap, x ∈ (genreStep rnd fid s g).nodeMap) := by
  obtain ⟨hinv, hself, hmono⟩ :=
    addNode_inv rnd s ("g-" ++ g) NodeType.genre g none ⟨g, rfl⟩ h
  obtain ⟨hmap, hlinks, htag⟩ := hinv
  rw [genreStep]
  refine ⟨⟨hmap, ?_, htag⟩, hmono⟩
  intro lk hlk
  rcases List.mem_append.mp hlk with hlk | hlk
  · exact hlinks lk hlk
  · rw [List.mem_singleton] at hlk
    subst hlk
    exact ⟨hmono fid hfid, hself⟩

/-- The genre fold preserves the invariant and keeps known ids known. -/
theorem genreFold_inv (rnd : Nat → ℝ) (fid : String) (gs : List String) (s : BuildState)
    (hfid : fid ∈ s.nodeMap) (h : BuildInv s) :
    BuildInv (gs.foldl (genreStep rnd fid) s) ∧
    (∀ x ∈ s.nodeMap, x ∈ (gs.foldl (genreStep rnd fid) s).nodeMap) := by
  induction gs generalizing s with
  | nil => exact ⟨h, fun x hx => hx⟩
  | cons g gs ih =>
    simp only [List.foldl_cons]
    obtain ⟨h1, h2⟩ := genreStep_inv rnd fid s g hfid h
    obtain ⟨h3, h4⟩ := ih (genreStep rnd fid s g) (h2 fid hfid) h1
    exact ⟨h3, fun x hx => h4 x (h2 x hx)⟩

/-- One full `addFilm` preserves the builder invariant. -/
theorem addFilm_inv (rnd : Nat → ℝ) (st : BuildState) (film : Film) (h : BuildInv st) :
    BuildInv (addFilm rnd st film) := by
  obtain ⟨h1, hself, hmono⟩ := addNode_inv rnd st (filmNodeId film) NodeType.film
    film.title (some film) ⟨toString film.id, rfl⟩ h
  obtain ⟨h2, h2m⟩ := genreFold_inv rnd (filmNodeId film) film.genres _ hself h1
  rw [addFilm]
  cases hd : film.directors with
  | nil => exact h2
  | cons d ds =>
    obtain ⟨h3, h3self, h3mono⟩ := addNode_inv rnd
      (film.genres.foldl (genreStep rnd (filmNodeId film))
        (addNode rnd st (filmNodeId film) NodeType.film film.title (some film)))
      ("d-" ++ d) NodeType.director d none ⟨d, rfl⟩ h2
    obtain ⟨hmap, hlinks, htag⟩ := h3
    refine ⟨hmap, ?_, htag⟩
    intro lk hlk
    rcases List.mem_append.mp hlk with hlk | hlk
    · exact hlinks lk hlk
    · rw [List.mem_singleton] at hlk
      subst hlk
      exact ⟨h3mono _ (h2m _ hself), h3self⟩

/-- The whole build satisfies the builder invariant. -/
theorem buildGraph_inv (films : List Film) (rnd : Nat → ℝ) :
    BuildInv (films.foldl (addFilm rnd)
      { nodes := [], links := [], nodeMap := [], rc := 0 }) := by
  suffices h : ∀ st, BuildInv st → BuildInv (films.foldl (addFilm rnd) st) by
    refine h _ ⟨rfl, ?_, ?_⟩ <;> intro x hx <;> exact absurd hx (List.not_mem_nil x)
  induction films with
  | nil => exact fun st h => h
  | cons f fs ih =>
    intro st h
    rw [List.foldl_cons]
    exact ih _ (addFilm_inv rnd st f h)

/-- C9: for every input film list the built graph is well-formed: every
edge endpoint id names a node present in the built node set, every node
id carries the namespace tag of its kind (`f-`, `g-`, `d-`), and nodes of
distinct kinds therefore never share an id. -/
theorem C9_well_formed (films : List Film) (rnd : Nat → ℝ) :
    (∀ lk ∈ (buildGraph films rnd).links,
      (∃ n ∈ (buildGraph films rnd).nodes, n.id = lk.source) ∧
      (∃ n ∈ (buildGraph films rnd).nodes, n.id = lk.target)) ∧
    (∀ n ∈ (buildGraph films rnd).nodes, ∃ r : String, n.id = kindTag n.type ++ r) ∧
    (∀ n ∈ (buildGraph films rnd).nodes, ∀ m ∈ (buildGraph films rnd).nodes,
      n.type ≠ m.type → n.id ≠ m.id) := by
  obtain ⟨hmap, hlinks, htag⟩ := buildGraph_inv films rnd
  refine ⟨?_, ?_, ?_⟩
  · intro lk hlk
    obtain ⟨h1, h2⟩ := hlinks lk hlk
    rw [hmap] at h1 h2
    obtain ⟨n, hn, hn2⟩ := List.mem_map.mp h1
    obtain ⟨m, hm, hm2⟩ := List.mem_map.mp h2
    exact ⟨⟨n, hn, hn2⟩, ⟨m, hm, hm2⟩⟩
  · exact htag
  · intro n hn m hm hne
    obtain ⟨r1, hr1⟩ := htag n hn
    obtain ⟨r2, hr2⟩ := htag m hm
    rw [hr1, hr2]
    exact kindTag_append_ne _ _ _ _ hne

/-- Witness for C9: in the one-film build the edge (f-1, g-Drama) exists
and both its endpoints resolve to nodes of the built set. -/
theorem C9_well_formed_witness :
    ∃ n ∈ (buildGraph [filmA] (fun _ => 0)).nodes, n.id = "f-1" := by
  have t1 : "f-" ++ toString (1 : Int) = "f-1" := rfl
  have hmem : ({ source := "f-1", target := "g-Drama" } : Link) ∈
      (buildGraph [filmA] (fun _ => 0)).links := by
    rw [buildGraph_links]
    simp [filmLinks, filmA, filmNodeId, t1]
  obtain ⟨⟨n, hn, hid⟩, _⟩ :=
    (C9_well_formed [filmA] (fun _ => 0)).1 { source := "f-1", target := "g-Drama" } hmem
  exact ⟨n, hn, hid⟩

/-- Witness for C8: the scenario film A with director list ["X"] yields
exactly the single director link (f-1, d-X). -/
theorem C8_director_limiting_witness :
    dirLink filmA = [{ source := filmNodeId filmA, target := "d-" ++ "X" }] ∧
    (dirLink filmA).length = (if filmA.directors.isEmpty then 0 else 1) :=
  ⟨(C8_director_limiting [] (fun _ => 0)).2.2 filmA "X" [] (by rw [filmA]),
    (C8_director_limiting [] (fun _ => 0)).2.1 filmA⟩

/-- Concrete two-node drag state: node b (index 1) is dragged and sits 10
units from node a, well inside the repulsion cutoff and the viewport. -/
noncomputable def sC1 : SimState :=
  { nodes := [mkNode "a" 100 100 0 0 5, mkNode "b" 110 100 0 0 5], links := [],
    dragged := some 1, hovered := none, width := 800, height := 600 }

/-- C1 (counterexample): one simulation step of the concrete drag state
`sC1` changes the dragged node's x-velocity from 0 to 15: the inner
repulsion loop applies its mutual impulse to the higher-indexed node even
when that node is the dragged one, so a dragged node's velocity does not
stay at zero. -/
theorem C1_counterexample :
    sC1.dragged = some 1 ∧
    (mkNode "b" 110 100 0 0 5).vx = 0 ∧
    (step sC1).nodes[1]? = some (mkNode "b" 110 100 15 0 5) ∧
    (15 : ℝ) ≠ 0 := by
  have hd : repulsionDist ((100 : ℝ) - 110) ((100 : ℝ) - 100) = 10 := by
    rw [repulsionDist, show ((100 : ℝ) - 110) * ((100 : ℝ) - 110) +
      ((100 : ℝ) - 100) * ((100 : ℝ) - 100) = 10 ^ 2 by norm_num,
      Real.sqrt_sq (by norm_num), jsOr]
    norm_num
  have hcenter : centerNode 800 600 [mkNode "a" 100 100 0 0 5, mkNode "b" 110 100 0 0 5] 0 =
      [mkNode "a" 100 100 9 6 5, mkNode "b" 110 100 0 0 5] := by
    simp only [centerNode, List.getElem?_cons_zero, List.set_cons_zero, mkNode]
    norm_num
  have hrepel : repelPair [mkNode "a" 100 100 9 6 5, mkNode "b" 110 100 0 0 5] 0 1 =
      [mkNode "a" 100 100 (-6) 6 5, mkNode "b" 110 100 15 0 5] := by
    simp only [repelPair, List.getElem?_cons_zero, List.getElem?_cons_succ, mkNode]
    rw [if_pos (by rw [hd]; norm_num)]
    simp only [List.set_cons_zero, List.set_cons_succ]
    rw [hd]
    norm_num
  have hforces : forcesPass sC1 =
      [mkNode "a" 100 100 (-6) 6 5, mkNode "b" 110 100 15 0 5] := by
    have hrg : List.range (sC1.nodes.length) = [0, 1] := rfl
    rw [forcesPass, hrg]
    simp only [List.foldl_cons, List.foldl_nil]
    rw [if_neg (show ¬ sC1.dragged = some 0 by rw [sC1]; simp),
      if_pos (show sC1.dragged = some 1 by rw [sC1])]
    rw [show sC1.nodes = [mkNode "a" 100 100 0 0 5, mkNode "b" 110 100 0 0 5] from rfl,
      show sC1.width = 800 from rfl, show sC1.height = 600 from rfl, hcenter]
    rw [show repelInner [mkNode "a" 100 100 9 6 5, mkNode "b" 110 100 0 0 5] 0 =
      repelPair [mkNode "a" 100 100 9 6 5, mkNode "b" 110 100 0 0 5] 0 1 by
        simp [repelInner, List.range']]
    exact hrepel
  have hspring : springPass sC1.dragged sC1.links
      [mkNode "a" 100 100 (-6) 6 5, mkNode "b" 110 100 15 0 5] =
      [mkNode "a" 100 100 (-6) 6 5, mkNode "b" 110 100 15 0 5] := rfl
  have hupdate : (step sC1).nodes[1]? =
      (updatePass sC1 [mkNode "a" 100 100 (-6) 6 5, mkNode "b" 110 100 15 0 5])[1]? := by
    rw [step]
    rw [show springPass sC1.dragged sC1.links (forcesPass sC1) =
      [mkNode "a" 100 100 (-6) 6 5, mkNode "b" 110 100 15 0 5] by
        rw [hforces]; exact hspring]
  refine ⟨rfl, rfl, ?_, by norm_num⟩
  rw [hupdate, updatePass, listMapIdx_getElem]
  simp only [List.getElem?_cons_succ, List.getElem?_cons_zero, Option.map_some,
    Option.map_some', Option.map]
  simp only [updateNode]
  rw [if_pos (show sC1.dragged = some (0 + 1) by rw [sC1])]
  rw [show sC1.width = 800 from rfl, show sC1.height = 600 from rfl]
  have hxb : xBounds 800 (mkNode "b" 110 100 15 0 5) = mkNode "b" 110 100 15 0 5 := by
    rw [xBounds]
    rw [if_neg (show ¬ (mkNode "b" 110 100 15 0 5).x <
      (mkNode "b" 110 100 15 0 5).radius + 10 by rw [mkNode]; norm_num)]
    rw [if_neg (show ¬ (mkNode "b" 110 100 15 0 5).x >
      800 - ((mkNode "b" 110 100 15 0 5).radius + 10) by rw [mkNode]; norm_num)]
  have hyb : yBounds 600 (mkNode "b" 110 100 15 0 5) = mkNode "b" 110 100 15 0 5 := by
    rw [yBounds]
    rw [if_neg (show ¬ (mkNode "b" 110 100 15 0 5).y <
      (mkNode "b" 110 100 15 0 5).radius + 10 by rw [mkNode]; norm_num)]
    rw [if_neg (show ¬ (mkNode "b" 110 100 15 0 5).y >
      600 - ((mkNode "b" 110 100 15 0 5).radius + 10) by rw [mkNode]; norm_num)]
  rw [applyBounds, hxb, hyb]

/-- Two node lists agree in length and in every node's position (the
force passes only touch velocities). -/
def SamePos (base ns : List Node) : Prop :=
  ns.length = base.length ∧
  ∀ k : Nat, (ns[k]?).map Node.x = (base[k]?).map Node.x ∧
    (ns[k]?).map Node.y = (base[k]?).map Node.y

/-- Position agreement is reflexive. -/
theorem samePos_refl (ns : List Node) : SamePos ns ns :=
  ⟨rfl, fun _ => ⟨rfl, rfl⟩⟩

/-- Centering only changes a velocity, so positions are preserved. -/
theorem centerNode_samePos (w h : ℝ) (base ns : List Node) (i : Nat)
    (hsp : SamePos base ns) : SamePos base (centerNode w h ns i) := by
  obtain ⟨hlen, hpos⟩ := hsp
  cases hi : ns[i]? with
  | none => simp only [centerNode, hi]; exact ⟨hlen, hpos⟩
  | some a =>
    simp only [centerNode, hi]
    refine ⟨by rw [List.length_set]; exact hlen, ?_⟩
    intro k
    by_cases hk : i = k
    · subst hk
      rw [List.getElem?_set_self (lt_length_of_getElem? hi)]
      have hp := hpos i
      rw [hi] at hp
      exact hp
    · rw [List.getElem?_set_ne hk]
      exact hpos k

/-- Centering one index leaves all other indices untouched. -/
theorem centerNode_getElem_ne (w h : ℝ) (ns : List Node) (i k : Nat) (hik : i ≠ k) :
    (centerNode w h ns i)[k]? = ns[k]? := by
  cases hi : ns[i]? with
  | none => simp only [centerNode, hi]
  | some a =>
    simp only [centerNode, hi]
    exact List.getElem?_set_ne hik

/-- A repulsion pair update only changes velocities. -/
theorem repelPair_samePos (base ns : List Node) (i j : Nat)
    (hsp : SamePos base ns) : SamePos base (repelPair ns i j) := by
  obtain ⟨hlen, hpos⟩ := hsp
  cases hi : ns[i]? with
  | none => simp only [repelPair, hi]; exact ⟨hlen, hpos⟩
  | some a =>
    cases hj : ns[j]? with
    | none => simp only [repelPair, hi, hj]; exact ⟨hlen, hpos⟩
    | some b =>
      simp only [repelPair, hi, hj]
      split
      · refine ⟨by rw [List.length_set, List.length_set]; exact hlen, ?_⟩
        intro k
        by_cases hkj : j = k
        · subst hkj
          rw [List.getElem?_set_self (by rw [List.length_set]; exact lt_length_of_getElem? hj)]
          have hp := hpos j
          rw [hj] at hp
          exact hp
        · rw [List.getElem?_set_ne hkj]
          by_cases hki : i = k
          · subst hki
            rw [List.getElem?_set_self (lt_length_of_getElem? hi)]
            have hp := hpos i
            rw [hi] at hp
            exact hp
          · rw [List.getElem?_set_ne hki]
            exact hpos k
      · exact ⟨hlen, hpos⟩

/-- A repulsion pair update leaves indices other than the pair's two
untouched. -/
theorem repelPair_getElem_ne (ns : List Node) (i j k : Nat)
    (hik : i ≠ k) (hjk : j ≠ k) : (repelPair ns i j)[k]? = ns[k]? := by
  cases hi : ns[i]? with
  | none => simp only [repelPair, hi]
  | some a =>
    cases hj : ns[j]? with
    | none => simp only [repelPair, hi, hj]
    | some b =>
      simp only [repelPair, hi, hj]
      split
      · rw [List.getElem?_set_ne hjk, List.getElem?_set_ne hik]
      · rfl

/-- When the pair is at or beyond the cutoff distance, the repulsion
update is the identity. -/
theorem repelPair_of_far (ns : List Node) (i j : Nat) (a b : Node)
    (hi : ns[i]? = some a) (hj : ns[j]? = some b)
    (hfar : ¬ repulsionDist (a.x - b.x) (a.y - b.y) < 300) :
    repelPair ns i j = ns := by
  simp only [repelPair, hi, hj, if_neg hfar]

/-- Through any inner repulsion fold with pivot `i ≠ d`, the dragged
node's entry stays intact and all positions stay intact, provided every
other node of the base state is at or beyond the cutoff distance from the
dragged node. -/
theorem repelFold_drag (base : List Node) (d : Nat) (n : Node) (i : Nat) (hid : i ≠ d)
    (hfar : ∀ (j : Nat) (m : Node), j ≠ d → base[j]? = some m →
      ¬ repulsionDist (m.x - n.x) (m.y - n.y) < 300)
    (js : List Nat) (ns : List Node) (hsp : SamePos base ns) (hdn : ns[d]? = some n) :
    SamePos base (js.foldl (fun a j => repelPair a i j) ns) ∧
    (js.foldl (fun a j => repelPair a i j) ns)[d]? = some n := by
  induction js generalizing ns with
  | nil => exact ⟨hsp, hdn⟩
  | cons j js ih =>
    rw [List.foldl_cons]
    by_cases hj : j = d
    · rw [hj]
      cases hi : ns[i]? with
      | none =>
        have hre : repelPair ns i d = ns := by simp only [repelPair, hi]
        rw [hre]
        exact ih ns hsp hdn
      | some a =>
        have hib : i < base.length := by
          rw [← hsp.1]
          exact lt_length_of_getElem? hi
        have hmb : base[i]? = some base[i] := List.getElem?_eq_getElem hib
        have hax : a.x = (base[i]).x := by
          have hp := (hsp.2 i).1
          rw [hi, hmb] at hp
          exact Option.some.inj hp
        have hay : a.y = (base[i]).y := by
          have hp := (hsp.2 i).2
          rw [hi, hmb] at hp
          exact Option.some.inj hp
        have hre : repelPair ns i d = ns := by
          refine repelPair_of_far ns i d a n hi hdn ?_
          rw [hax, hay]
          exact hfar i (base[i]) hid hmb
        rw [hre]
        exact ih ns hsp hdn
    · refine ih (repelPair ns i j) (repelPair_samePos base ns i j hsp) ?_
      rw [repelPair_getElem_ne ns i j d hid hj]
      exact hdn

/-- Through the whole force pass, the dragged node's entry stays intact
and all positions stay intact, provided every other node is at or beyond
the cutoff distance from it. -/
theorem forcesPass_drag (s : SimState) (d : Nat) (n : Node)
    (hdrag : s.dragged = some d) (hn : s.nodes[d]? = some n)
    (hfar : ∀ (j : Nat) (m : Node), j ≠ d → s.nodes[j]? = some m →
      ¬ repulsionDist (m.x - n.x) (m.y - n.y) < 300) :
    SamePos s.nodes (forcesPass s) ∧ (forcesPass s)[d]? = some n := by
  rw [forcesPass]
  have haux : ∀ (L : List Nat) (ns : List Node), SamePos s.nodes ns → ns[d]? = some n →
      SamePos s.nodes (L.foldl
        (fun ns i => if s.dragged = some i then ns
          else repelInner (centerNode s.width s.height ns i) i) ns) ∧
      (L.foldl (fun ns i => if s.dragged = some i then ns
          else repelInner (centerNode s.width s.height ns i) i) ns)[d]? = some n := by
    intro L
    induction L with
    | nil => exact fun ns h1 h2 => ⟨h1, h2⟩
    | cons i L ih =>
      intro ns h1 h2
      rw [List.foldl_cons]
      by_cases hi : s.dragged = some i
      · rw [if_pos hi]
        exact ih ns h1 h2
      · rw [if_neg hi]
        have hid : i ≠ d := fun he => hi (he ▸ hdrag)
        have hc1 : SamePos s.nodes (centerNode s.width s.height ns i) :=
          centerNode_samePos s.width s.height s.nodes ns i h1
        have hc2 : (centerNode s.width s.height ns i)[d]? = some n := by
          rw [centerNode_getElem_ne s.width s.height ns i d hid]
          exact h2
        obtain ⟨h3, h4⟩ := repelFold_drag s.nodes d n i hid hfar
          (List.range' (i + 1) ((centerNode s.width s.height ns i).length - (i + 1)))
          (centerNode s.width s.height ns i) hc1 hc2
        exact ih _ h3 h4
  exact haux (List.range s.nodes.length) s.nodes (samePos_refl s.nodes) hn


/-- A write guarded by the drag check never changes the dragged index. -/
theorem setUnlessDragged_drag (d : Nat) (ns : List Node) (i : Nat) (m : Node) :
    (setUnlessDragged (some d) ns i m)[d]? = ns[d]? := by
  rw [setUnlessDragged]
  split
  · rfl
  · rename_i h
    exact List.getElem?_set_ne (fun he => h (by rw [he]))

/-- The spring update of one link never writes to the dragged node's
index: both endpoint writes are guarded by the drag check. -/
theorem applyLink_drag (d : Nat) (nodes : List Node) (lk : Link) :
    (applyLink (some d) nodes lk)[d]? = nodes[d]? := by
  rw [applyLink.eq_def]
  split
  · split
    · rename_i si ti src tgt heq1 heq2
      dsimp only
      split
      · rw [setUnlessDragged_drag, setUnlessDragged_drag]
      · rw [setUnlessDragged_drag]
    · rfl
  · rfl

/-- The whole spring pass never writes to the dragged node's index. -/
theorem springPass_drag (d : Nat) (links : List Link) (ns : List Node) :
    (springPass (some d) links ns)[d]? = ns[d]? := by
  rw [springPass]
  induction links generalizing ns with
  | nil => rfl
  | cons lk links ih =>
    rw [List.foldl_cons, ih (applyLink (some d) ns lk), applyLink_drag]

/-- An in-bounds node passes the x-axis boundary handling unchanged. -/
theorem xBounds_id (w : ℝ) (n : Node)
    (h1 : ¬ n.x < n.radius + 10) (h2 : ¬ n.x > w - (n.radius + 10)) :
    xBounds w n = n := by
  simp only [xBounds, if_neg h1, if_neg h2]

/-- An in-bounds node passes the y-axis boundary handling unchanged. -/
theorem yBounds_id (h : ℝ) (n : Node)
    (h1 : ¬ n.y < n.radius + 10) (h2 : ¬ n.y > h - (n.radius + 10)) :
    yBounds h n = n := by
  simp only [yBounds, if_neg h1, if_neg h2]

/-- C1 (amended): while a node is dragged, a simulation step skips its
centering, spring and integration updates unconditionally; its entry can
still change through the repulsion impulse applied by a lower-indexed
node within the cutoff distance, and through the boundary clamp when its
position lies outside the viewport.  When no other node is within the
cutoff distance and the dragged node's position is within the bounds, one
simulation step leaves the dragged node's entry — position and velocity —
entirely unchanged. -/
theorem C1_drag_exempt_amended (s : SimState) (d : Nat) (n : Node)
    (hdrag : s.dragged = some d) (hn : s.nodes[d]? = some n)
    (hx1 : ¬ n.x < n.radius + 10) (hx2 : ¬ n.x > s.width - (n.radius + 10))
    (hy1 : ¬ n.y < n.radius + 10) (hy2 : ¬ n.y > s.height - (n.radius + 10))
    (hfar : ∀ (j : Nat) (m : Node), j ≠ d → s.nodes[j]? = some m →
      ¬ repulsionDist (m.x - n.x) (m.y - n.y) < 300) :
    (step s).nodes[d]? = some n := by
  obtain ⟨hsp, hforce⟩ := forcesPass_drag s d n hdrag hn hfar
  have hs2 : (springPass s.dragged s.links (forcesPass s))[d]? = some n := by
    rw [hdrag, springPass_drag]
    exact hforce
  rw [step]
  rw [updatePass, listMapIdx_getElem, Nat.zero_add, hs2]
  simp only [Option.map_some', Option.map, updateNode, if_pos hdrag]
  rw [applyBounds, xBounds_id s.width n hx1 hx2, yBounds_id s.height n hy1 hy2]

/-- Concrete drag state for the C1 witness: the dragged node b sits in
bounds at (500, 100) and the only other node is 400 units away, beyond
the repulsion cutoff. -/
noncomputable def sC1W : SimState :=
  { nodes := [mkNode "a" 100 100 0 0 5, mkNode "b" 500 100 0 0 5], links := [],
    dragged := some 1, hovered := none, width := 800, height := 600 }

/-- Witness for C1 (amended): one step of `sC1W` leaves the dragged node
untouched. -/
theorem C1_drag_exempt_amended_witness :
    sC1W.dragged = some 1 ∧
    (step sC1W).nodes[1]? = some (mkNode "b" 500 100 0 0 5) := by
  refine ⟨rfl, ?_⟩
  refine C1_drag_exempt_amended sC1W 1 (mkNode "b" 500 100 0 0 5) rfl rfl ?_ ?_ ?_ ?_ ?_
  · simp only [mkNode]
    norm_num
  · simp only [sC1W, mkNode]
    norm_num
  · simp only [mkNode]
    norm_num
  · simp only [sC1W, mkNode]
    norm_num
  · intro j m hj hm
    rcases j with _ | _ | j
    · simp only [sC1W, List.getElem?_cons_zero] at hm
      obtain rfl : mkNode "a" 100 100 0 0 5 = m := Option.some.inj hm
      simp only [mkNode]
      rw [repulsionDist, show ((100 : ℝ) - 500) * ((100 : ℝ) - 500) +
        ((100 : ℝ) - 100) * ((100 : ℝ) - 100) = 400 ^ 2 by norm_num,
        Real.sqrt_sq (by norm_num), jsOr]
      norm_num
    · exact absurd rfl hj
    · simp only [sC1W, List.getElem?_cons_succ, List.getElem?_nil] at hm
      exact Option.noConfusion hm
